import Mathlib

/-!
# Verification of the markdown2pdf converter core

Shallow embedding of the conversion logic of `streamlit_app.py`
(markdown2pdf): the TOC builder, the slug generator, the style composer,
the filename resolver and the effectful skeleton of the conversion
attempt (temp-file lifecycle, user-facing events).  Strings are modelled
as `List Char`; Python string primitives (`str.lower`, `str.strip`,
`str.replace`, `str.splitlines`, `os.path.splitext`, the two regexes)
are embedded for the ASCII inputs the program manipulates.
-/

namespace M2P

/-- Shorthand: the character list of a string literal. -/
def strC (s : String) : List Char := s.data

/-- The character class `[a-zA-Z0-9]` of the regexes at lines 129 and 158
of `streamlit_app.py` (ASCII letters and digits). -/
def isAlnumAscii (c : Char) : Bool :=
  decide ((65 ≤ c.toNat ∧ c.toNat ≤ 90) ∨ (97 ≤ c.toNat ∧ c.toNat ≤ 122) ∨
    (48 ≤ c.toNat ∧ c.toNat ≤ 57))

/-- Characters Python's `str.strip()` removes (ASCII whitespace). -/
def isPySpace (c : Char) : Bool :=
  decide (c = ' ' ∨ c = '\t' ∨ c = '\n' ∨ c = '\r' ∨ c = '\x0b' ∨ c = '\x0c')

/-- Python `str.strip()`: drop whitespace from both ends. -/
def pystrip (l : List Char) : List Char :=
  ((l.dropWhile isPySpace).reverse.dropWhile isPySpace).reverse

theorem length_dropWhile_le (p : α → Bool) (l : List α) :
    (l.dropWhile p).length ≤ l.length := by
  induction l with
  | nil => simp [List.dropWhile]
  | cons a l ih =>
    simp only [List.dropWhile]
    split
    · exact Nat.le_succ_of_le ih
    · exact Nat.le_refl _

/-- Structural worker for `collapseNonAlnum`; the fuel bounds the
number of emitted characters and never runs out when it starts at the
input's length (the recursion consumes at least one input character per
emitted one). -/
def collapseGo : Nat → List Char → List Char
  | _, [] => []
  | 0, l => l
  | fuel + 1, c :: rest =>
    if isAlnumAscii c then c :: collapseGo fuel rest
    else '-' :: collapseGo fuel (rest.dropWhile (fun d => !isAlnumAscii d))

/-- `re.sub(r'[^a-zA-Z0-9]+', '-', s)` (line 129): replace every maximal
run of characters outside `[a-zA-Z0-9]` by a single hyphen. -/
def collapseNonAlnum (l : List Char) : List Char := collapseGo l.length l

theorem collapseGo_fuel_irrel (fuel : Nat) :
    ∀ (fuel' : Nat) (l : List Char), l.length ≤ fuel → l.length ≤ fuel' →
      collapseGo fuel l = collapseGo fuel' l := by
  induction fuel with
  | zero =>
    intro fuel' l h _
    have : l = [] := List.length_eq_zero.1 (Nat.le_zero.1 h)
    subst this
    cases fuel' <;> rfl
  | succ fuel ih =>
    intro fuel' l h h'
    cases l with
    | nil => cases fuel' <;> rfl
    | cons c rest =>
      cases fuel' with
      | zero => simp at h'
      | succ fuel' =>
        simp only [collapseGo]
        split
        · rw [ih fuel' rest (by simp at h; omega) (by simp at h'; omega)]
        · rw [ih fuel' (rest.dropWhile (fun d => !isAlnumAscii d))
            (le_trans (length_dropWhile_le _ _) (by simp at h; omega))
            (le_trans (length_dropWhile_le _ _) (by simp at h'; omega))]

theorem collapseNonAlnum_nil : collapseNonAlnum [] = [] := rfl

/-- The defining equation of the `re.sub` collapse on a non-empty
input. -/
theorem collapseNonAlnum_cons (c : Char) (rest : List Char) :
    collapseNonAlnum (c :: rest) =
      if isAlnumAscii c then c :: collapseNonAlnum rest
      else '-' :: collapseNonAlnum (rest.dropWhile (fun d => !isAlnumAscii d)) := by
  show collapseGo (rest.length + 1) (c :: rest) = _
  simp only [collapseGo]
  split
  · rfl
  · rw [collapseGo_fuel_irrel rest.length
      (rest.dropWhile (fun d => !isAlnumAscii d)).length _
      (length_dropWhile_le _ _) (Nat.le_refl _)]
    rfl

/-- The anchor computation of line 129:
`re.sub(r'[^a-zA-Z0-9]+', '-', title.lower())`.  `Char.toLower` agrees
with Python `str.lower` on the ASCII range (both map only `A`–`Z`). -/
def slugify (title : List Char) : List Char :=
  collapseNonAlnum (title.map Char.toLower)

/-- Python `pat in txt` / the scanning side of `str.replace`:
does `pat` occur as a contiguous substring of `txt`? -/
def occurs (pat : List Char) : List Char → Bool
  | [] => pat.isEmpty
  | l@(_ :: rest) => pat.isPrefixOf l || occurs pat rest

/-- Python `txt.replace(pat, rep)` for a non-empty `pat`: replace every
left-to-right non-overlapping occurrence of `pat` by `rep`.  (On an
empty `pat` Python interleaves `rep` everywhere; the program only ever
replaces non-empty heading tags, and this embedding returns `txt`
unchanged in that unused case.) -/
def replaceGo (pat rep : List Char) : Nat → List Char → List Char
  | _, [] => []
  | 0, l => l
  | fuel + 1, c :: rest =>
    if pat ≠ [] ∧ pat.isPrefixOf (c :: rest) then
      rep ++ replaceGo pat rep fuel ((c :: rest).drop pat.length)
    else c :: replaceGo pat rep fuel rest

def replaceAll (pat rep l : List Char) : List Char := replaceGo pat rep l.length l

theorem replaceGo_fuel_irrel (pat rep : List Char) (fuel : Nat) :
    ∀ (fuel' : Nat) (l : List Char), l.length ≤ fuel → l.length ≤ fuel' →
      replaceGo pat rep fuel l = replaceGo pat rep fuel' l := by
  induction fuel with
  | zero =>
    intro fuel' l h _
    have : l = [] := List.length_eq_zero.1 (Nat.le_zero.1 h)
    subst this
    cases fuel' <;> rfl
  | succ fuel ih =>
    intro fuel' l h h'
    cases l with
    | nil => cases fuel' <;> rfl
    | cons c rest =>
      cases fuel' with
      | zero => simp at h'
      | succ fuel' =>
        simp only [replaceGo]
        split
        · rename_i hc
          have hp : 1 ≤ pat.length := by
            cases pat with
            | nil => exact absurd rfl hc.1
            | cons p pt => simp
          rw [ih fuel' ((c :: rest).drop pat.length)
            (by simp [List.length_drop] at h ⊢; omega)
            (by simp [List.length_drop] at h' ⊢; omega)]
        · rw [ih fuel' rest (by simp at h; omega) (by simp at h'; omega)]

theorem replaceAll_nil (pat rep : List Char) : replaceAll pat rep [] = [] := rfl

/-- The defining equation of the Python-style `str.replace` scan on a
non-empty input. -/
theorem replaceAll_cons (pat rep : List Char) (c : Char) (rest : List Char) :
    replaceAll pat rep (c :: rest) =
      if pat ≠ [] ∧ pat.isPrefixOf (c :: rest) then
        rep ++ replaceAll pat rep ((c :: rest).drop pat.length)
      else c :: replaceAll pat rep rest := by
  show replaceGo pat rep (rest.length + 1) (c :: rest) = _
  simp only [replaceGo]
  split
  · rename_i hc
    rw [replaceGo_fuel_irrel pat rep rest.length
      ((c :: rest).drop pat.length).length _
      (by cases pat with
        | nil => exact absurd rfl hc.1
        | cons p pt => simp [List.length_drop])
      (Nat.le_refl _)]
    rfl
  · rfl

/-- Decimal rendering of a natural number, as Python interpolates
integers into f-strings. -/
def natStr (n : Nat) : List Char := (toString n).data

/-- Python `str.splitlines()` restricted to the line breaks that can
occur in the program's UTF-8 decoded input: `\n`, `\r` and `\r\n`.
A trailing line break produces no empty final line. -/
def pySplitlines : List Char → List (List Char)
  | [] => []
  | c :: rest =>
    let line := (c :: rest).takeWhile (fun d => d != '\n' && d != '\r')
    match h : (c :: rest).drop line.length with
    | [] => [line]
    | '\r' :: '\n' :: r => line :: pySplitlines r
    | _ :: r => line :: pySplitlines r
termination_by l => l.length
decreasing_by
  all_goals
    have hlen : ((c :: rest).drop ((c :: rest).takeWhile
        (fun d => d != '\n' && d != '\r')).length).length ≤ rest.length + 1 := by
      simp [List.length_drop]
    rw [h] at hlen
    simp at hlen
    simp
    omega

/-! ## TOC builder (lines 123–133) -/

/-- Line 127: `level = len(line.split(" ")[0])` — the length of the text
before the first space (the whole line if it has no space). -/
def tocLevel (line : List Char) : Nat :=
  (line.takeWhile (fun c => c != ' ')).length

/-- Line 128: `title = line[level+1:].strip()`. -/
def tocTitle (line : List Char) : List Char :=
  pystrip (line.drop (tocLevel line + 1))

/-- The search key of line 131: `f"<h{level}>" + title + f"</h{level}>"`. -/
def headingPat (level : Nat) (title : List Char) : List Char :=
  strC "<h" ++ natStr level ++ strC ">" ++ title ++
    strC "</h" ++ natStr level ++ strC ">"

/-- The replacement of line 131:
`f"<h{level} id='{anchor}'>" + title + f"</h{level}>"`. -/
def headingRepl (level : Nat) (anchor title : List Char) : List Char :=
  strC "<h" ++ natStr level ++ strC " id='" ++ anchor ++ strC "'>" ++
    title ++ strC "</h" ++ natStr level ++ strC ">"

/-- The TOC list item of line 130. -/
def tocEntry (level : Nat) (anchor title : List Char) : List Char :=
  strC "<li style='margin-left:" ++ natStr ((level - 1) * 20) ++
    strC "px'><a href='#" ++ anchor ++ strC "'>" ++ title ++ strC "</a></li>"

/-- One iteration of the loop at lines 125–131 over the pair
`(toc_html, html)`: a line is processed iff it starts with `#`. -/
def tocStep (acc : List Char × List Char) (line : List Char) :
    List Char × List Char :=
  if line.head? = some '#' then
    let level := tocLevel line
    let title := tocTitle line
    let anchor := slugify title
    (acc.1 ++ tocEntry level anchor title,
     replaceAll (headingPat level title) (headingRepl level anchor title) acc.2)
  else acc

/-- The whole loop of lines 124–131, started from
`toc_html = "<h2>Table of Contents</h2><ul>"` and the rendered HTML. -/
def tocLoop (lines : List (List Char)) (html : List Char) :
    List Char × List Char :=
  lines.foldl tocStep (strC "<h2>Table of Contents</h2><ul>", html)

/-- Lines 123–133: build the TOC from the raw Markdown lines, rewrite
the rendered HTML, close the list and prepend it. -/
def addToc (mdLines : List (List Char)) (html : List Char) : List Char :=
  let r := tocLoop mdLines html
  (r.1 ++ strC "</ul>") ++ r.2

/-! ## Style composer (lines 135–151) -/

/-- The `styles` dict fragments of lines 136–140 (CSS braces written
with their character codes). -/
def githubFrag : List Char :=
  strC "body \x7b font-family: 'Segoe UI'; background: #fff; color: #24292e; \x7d code \x7b background: #f6f8fa; \x7d"

def notionFrag : List Char :=
  strC "body \x7b font-family: 'sans-serif'; background: #fdfdfd; color: #37352f; \x7d h1, h2, h3 \x7b border-bottom: 1px solid #eee; \x7d"

def minimalistFrag : List Char :=
  strC "body \x7b font-family: 'Georgia'; background: #fff; color: #000; line-height: 1.6; \x7d h1, h2 \x7b text-align: center; \x7d"

def darkFrag : List Char :=
  strC "body \x7b background: #121212; color: #e0e0e0; font-family: 'Courier New'; \x7d"

/-- `styles.get(theme, '')` (lines 135–141, 147): lookup in the fixed
five-entry dict, empty string for unrecognized names. -/
def stylesGet (theme : List Char) : List Char :=
  if theme = strC "Default" then []
  else if theme = strC "GitHub" then githubFrag
  else if theme = strC "Notion" then notionFrag
  else if theme = strC "Minimalist" then minimalistFrag
  else if theme = strC "Dark" then darkFrag
  else []

/-- Fixed text of the style f-string (lines 143–151) before the
interpolated font size. -/
def stylePre : List Char :=
  strC "\n            <style>\n                body \x7b\n                    font-size: "

/-- Fixed text between the font size and the theme fragment. -/
def styleMid : List Char := strC "pt;\n                    "

/-- Fixed text between the theme fragment and the page-break value. -/
def stylePost1 : List Char :=
  strC "\n                \x7d\n                h1 \x7b page-break-before: "

/-- Fixed text after the page-break value. -/
def stylePost2 : List Char := strC "; \x7d\n            </style>\n            "

/-- The f-string of lines 143–151: the `<style>` block with the body
font size, the theme fragment and the `h1` page-break rule spliced in
(whitespace exactly as in the triple-quoted source literal). -/
def composeStyle (theme : List Char) (fontSize : Nat) (splitPages : Bool) :
    List Char :=
  stylePre ++ natStr fontSize ++ styleMid ++ stylesGet theme ++ stylePost1
    ++ (if splitPages then strC "always" else strC "auto") ++ stylePost2

/-- Line 153: the watermark overlay `div`, empty when the watermark text
is empty (Python truthiness of the string). -/
def watermarkHtml (w : List Char) : List Char :=
  if w = [] then []
  else
    strC "<div style='position:fixed; top:45%; left:30%; font-size:48px; color:rgba(150,150,150,0.15); transform:rotate(-30deg); z-index:-1'>"
      ++ w ++ strC "</div>"

/-- The conversion options the final HTML depends on (a sub-record of
the UI configuration; the remaining options only feed the external
renderer's flags). -/
structure Config where
  fontSize : Nat
  theme : List Char
  splitPages : Bool
  watermark : List Char
  addToc : Bool

/-- Lines 121–155: Markdown rendering (the external `markdown.markdown`,
taken as a function parameter), optional TOC injection, and the final
`<html><head>{style}</head><body>{watermark}{html}</body></html>` wrap. -/
def finalHtml (mdRender : List Char → List Char) (md : List Char)
    (cfg : Config) : List Char :=
  let html0 := mdRender md
  let html1 := if cfg.addToc then addToc (pySplitlines md) html0 else html0
  strC "<html><head>" ++ composeStyle cfg.theme cfg.fontSize cfg.splitPages
    ++ strC "</head><body>" ++ watermarkHtml cfg.watermark ++ html1
    ++ strC "</body></html>"

/-! ## Filename resolver (lines 157–164) -/

/-- `re.match(r"# (.+)", md_content)` (line 158): succeeds iff the text
starts with `#`, a space, and at least one further character on that
line; the group is the rest of the first line (`.` excludes `\n`). -/
def firstLineH1Title (md : List Char) : Option (List Char) :=
  match md with
  | '#' :: ' ' :: rest =>
    let t := rest.takeWhile (fun c => c != '\n')
    if t = [] then none else some t
  | _ => none

/-- `os.path.splitext(name)[0]` for a bare file name (no path
separator, as Streamlit upload names are): strip the extension after
the last dot, except that a name whose part before that dot is all dots
has no extension. -/
def splitextBase (s : List Char) : List Char :=
  if ('.' : Char) ∈ s then
    let d := s.length - 1 - s.reverse.indexOf '.'
    let base := s.take d
    if base.any (fun c => c != '.') then base else s
  else s

/-- Lines 157–164: the output base name — first-line `# title` with
spaces replaced by underscores, else the uploaded name without its
extension, else `converted_` plus the formatted current time (passed in
as the already formatted `%Y%m%d_%H%M%S` string). -/
def resolveBaseName (md : List Char) (uploaded : Option (List Char))
    (now : List Char) : List Char :=
  match firstLineH1Title md with
  | some t => (pystrip t).map (fun c => if c = ' ' then '_' else c)
  | none =>
    match uploaded with
    | some name => splitextBase name
    | none => strC "converted_" ++ now

/-- The pair of request outputs that C10 relates: the final HTML and
the resolved base name, as functions of the document, the
configuration, the uploaded name and the current wall-clock time. -/
def convertOutputs (mdRender : List Char → List Char) (md : List Char)
    (cfg : Config) (uploaded : Option (List Char)) (now : List Char) :
    List Char × List Char :=
  (finalHtml mdRender md cfg, resolveBaseName md uploaded now)

/-! ## The conversion attempt (lines 118–219): events and temp files -/

/-- The two on-disk temporary buffers a conversion attempt can create:
the `NamedTemporaryFile(delete=False, suffix=".pdf")` of line 185 and
the `NamedTemporaryFile(delete=False, suffix=".html")` of line 204. -/
inductive TmpFile where
  | pdf
  | html
deriving DecidableEq

/-- User-facing events of one attempt: a download button offering an
artifact (name and byte content), an informational success banner, or
the failure banner of the `except` handler. -/
inductive Ev where
  | artifact (name : List Char) (content : List Nat)
  | info (msg : List Char)
  | failure (msg : List Char)
deriving DecidableEq

def Ev.isFailure : Ev → Bool
  | .failure _ => true
  | _ => false

def Ev.isArtifact : Ev → Bool
  | .artifact _ _ => true
  | _ => false

/-- The checkbox flags that steer the attempt's control flow
(lines 98, 104, 107, 110). -/
structure Flags where
  showPreview : Bool
  downloadPreview : Bool
  saveHtml : Bool
  compress : Bool

/-- Where an exception is raised during the attempt, if anywhere: in
`pdfkit.from_string` (line 186) or in the HTML temp-file write
(lines 204–206).  A point whose operation is not executed (HTML write
with `save_html` off) cannot raise. -/
inductive FailPoint where
  | noFail
  | atRender
  | atHtmlWrite
deriving DecidableEq

/-- What remains observable after an attempt: the emitted events in
order, and the temporary files still on disk after the cleanup loop of
lines 218–219. -/
structure Outcome where
  events : List Ev
  leftover : List TmpFile
deriving DecidableEq

/-- Line 216: `st.error(f"❌ Conversion failed: {e}")`. -/
def errMsg (err : List Char) : List Char :=
  strC "❌ Conversion failed: " ++ err

/-- Lines 118–219, one conversion attempt.  `pdfBytes` is the renderer's
output written into the temp `.pdf` (read back for the download buttons
of lines 196 and 200); `htmlBytes` the bytes of line 205.

  * line 182 `temp_files = []`; line 185 creates the `.pdf` on disk;
  * line 186 `pdfkit.from_string` — if it raises, control jumps to the
    `except` of lines 215–216 with `temp_files` still empty, so the
    cleanup loop (lines 218–219) deletes nothing and the `.pdf` stays;
  * line 187 appends the `.pdf` to `temp_files` only after a successful
    render; lines 194–200 offer the preview and main PDF downloads;
  * lines 203–209: with `save_html`, the `.html` temp file is created
    and written; a write failure again reaches the `except` before the
    `append` of line 207, leaving the `.html` on disk;
  * lines 211–213: with `compress_pdf`, the code only shows
    `st.success("✅ PDF compressed!")` — no bytes are transformed;
  * lines 218–219 unlink exactly the files recorded in `temp_files`. -/
def runAttempt (fl : Flags) (fp : FailPoint) (err : List Char)
    (pdfBytes htmlBytes : List Nat) (fnamePdf fnameHtml : List Char) :
    Outcome :=
  if fp = .atRender then
    { events := [.failure (errMsg err)], leftover := [.pdf] }
  else
    let evs1 : List Ev :=
      (if fl.downloadPreview then
        [.artifact (strC "preview_" ++ fnamePdf) pdfBytes] else [])
      ++ [.info (strC "✅ PDF generated!"), .artifact fnamePdf pdfBytes]
    if fl.saveHtml then
      if fp = .atHtmlWrite then
        { events := evs1 ++ [.failure (errMsg err)], leftover := [.html] }
      else
        { events := evs1 ++ [.artifact fnameHtml htmlBytes]
            ++ (if fl.compress then [.info (strC "✅ PDF compressed!")] else []),
          leftover := [] }
    else
      { events := evs1
          ++ (if fl.compress then [.info (strC "✅ PDF compressed!")] else []),
        leftover := [] }

/-! ## Character-level lemmas -/

theorem char_toNat_ofNat (n : Nat) (h : n.isValidChar) :
    (Char.ofNat n).toNat = n := by
  unfold Char.ofNat
  rw [dif_pos h]
  simp [Char.ofNatAux, Char.toNat, UInt32.toNat]

theorem toNat_toLower (c : Char) :
    (Char.toLower c).toNat =
      if 65 ≤ c.toNat ∧ c.toNat ≤ 90 then c.toNat + 32 else c.toNat := by
  simp only [Char.toLower]
  split
  · rename_i hin
    exact char_toNat_ofNat _ (Or.inl (by omega))
  · rfl

theorem toLower_eq_self (c : Char) (h : ¬(65 ≤ c.toNat ∧ c.toNat ≤ 90)) :
    Char.toLower c = c := by
  simp only [Char.toLower]
  exact if_neg (fun hh => h ⟨hh.1, hh.2⟩)

theorem toLower_toLower (c : Char) :
    Char.toLower (Char.toLower c) = Char.toLower c := by
  by_cases hin : 65 ≤ c.toNat ∧ c.toNat ≤ 90
  · apply toLower_eq_self
    rw [toNat_toLower, if_pos hin]
    omega
  · rw [toLower_eq_self c hin]
    exact toLower_eq_self c hin

theorem isAlnumAscii_toLower (c : Char) (h : isAlnumAscii c = true) :
    isAlnumAscii (Char.toLower c) = true := by
  simp only [isAlnumAscii, decide_eq_true_eq] at h ⊢
  rw [toNat_toLower]
  split
  · omega
  · exact h

/-- A run of `[a-zA-Z0-9]` characters is left unchanged by the
`re.sub` collapse. -/
theorem collapseNonAlnum_of_all_alnum (l : List Char)
    (h : ∀ c ∈ l, isAlnumAscii c = true) : collapseNonAlnum l = l := by
  induction l with
  | nil => rfl
  | cons c rest ih =>
    rw [collapseNonAlnum_cons, if_pos (h c (List.mem_cons_self c rest))]
    rw [ih (fun d hd => h d (List.mem_cons_of_mem c hd))]

/-- C7 — `slugify` is idempotent on ASCII alphanumeric inputs: for a
title consisting of `[a-zA-Z0-9]` characters only,
`slugify (slugify x) = slugify x` (lines 129: lower-case, then replace
every maximal run outside `[a-z0-9]` by one hyphen). -/
theorem slugify_idempotent_on_alnum (l : List Char)
    (h : ∀ c ∈ l, isAlnumAscii c = true) :
    slugify (slugify l) = slugify l := by
  have hmap : ∀ c ∈ l.map Char.toLower, isAlnumAscii c = true := by
    intro c hc
    rcases List.mem_map.1 hc with ⟨d, hd, rfl⟩
    exact isAlnumAscii_toLower d (h d hd)
  have h1 : slugify l = l.map Char.toLower := by
    rw [slugify, collapseNonAlnum_of_all_alnum _ hmap]
  rw [h1, slugify, List.map_map]
  have h2 : l.map (Char.toLower ∘ Char.toLower) = l.map Char.toLower := by
    refine List.map_congr_left ?_
    intro a _
    exact toLower_toLower a
  rw [h2, collapseNonAlnum_of_all_alnum _ hmap]

/-- Witness for C7 at the concrete title `AbC123`. -/
theorem slugify_idempotent_on_alnum_witness :
    (∀ c ∈ strC "AbC123", isAlnumAscii c = true) ∧
      slugify (slugify (strC "AbC123")) = slugify (strC "AbC123") :=
  ⟨by decide, slugify_idempotent_on_alnum _ (by decide)⟩

/-! ## C1 — heading level assignment -/

/-- The level the spec describes: the count of leading `#` characters
of the line (stated for comparison with `tocLevel`, the level the code
computes). -/
def leadingHashes (line : List Char) : Nat :=
  (line.takeWhile (fun c => c == '#')).length

/-- C1 counterexample — the line `#Hello` is a heading candidate (it
starts with `#`, and its `#` run is not followed by a space); the TOC
builder assigns it level `len("#Hello".split(" ")[0]) = 6`, not the
leading-`#` count `1`. -/
theorem tocLevel_not_leading_hash_count :
    (strC "#Hello").head? = some '#' ∧
      tocLevel (strC "#Hello") = 6 ∧
      leadingHashes (strC "#Hello") = 1 ∧
      tocLevel (strC "#Hello") ≠ leadingHashes (strC "#Hello") := by
  decide

theorem length_takeWhile_hash_append (p : Char → Bool) (hp : p '#' = true)
    (n : Nat) (tail : List Char) (htail : tail.takeWhile p = []) :
    ((List.replicate n '#' ++ tail).takeWhile p).length = n := by
  induction n with
  | zero => simp [htail]
  | succ n ih =>
    rw [List.replicate_succ, List.cons_append, List.takeWhile_cons, if_pos hp]
    simp [ih]

/-- C1 amended — the TOC builder assigns as level the length of the
line's first space-delimited token (`len(line.split(" ")[0])`,
line 127).  This equals the count of leading `#` characters exactly on
the lines whose `#` run is immediately followed by a space or is the
whole line; on other heading candidates (see the counterexample)
the two differ. -/
theorem tocLevel_first_token (n : Nat) (rest : List Char) (hn : 0 < n) :
    tocLevel (List.replicate n '#' ++ ' ' :: rest) = n ∧
      tocLevel (List.replicate n '#') = n ∧
      leadingHashes (List.replicate n '#' ++ ' ' :: rest) = n ∧
      leadingHashes (List.replicate n '#') = n := by
  refine ⟨?_, ?_, ?_, ?_⟩
  · exact length_takeWhile_hash_append _ (by decide) n _ (by simp)
  · have h := length_takeWhile_hash_append (fun c => c != ' ') (by decide) n []
      (by simp)
    rw [List.append_nil] at h
    exact h
  · exact length_takeWhile_hash_append _ (by decide) n _ (by simp)
  · have h := length_takeWhile_hash_append (fun c => c == '#') (by decide) n []
      (by simp)
    rw [List.append_nil] at h
    exact h

/-- Witness for the amended C1 at `n = 2`, i.e. the line `## Sub`. -/
theorem tocLevel_first_token_witness :
    0 < 2 ∧
      (tocLevel (List.replicate 2 '#' ++ ' ' :: strC "Sub") = 2 ∧
        tocLevel (List.replicate 2 '#') = 2 ∧
        leadingHashes (List.replicate 2 '#' ++ ' ' :: strC "Sub") = 2 ∧
        leadingHashes (List.replicate 2 '#') = 2) :=
  ⟨by decide, tocLevel_first_token 2 (strC "Sub") (by decide)⟩

/-! ## C9 and C2 — the literal heading rewrite -/

/-- `str.replace` leaves a text without any occurrence of the pattern
unchanged. -/
theorem replaceAll_of_not_occurs (pat rep : List Char) :
    ∀ l : List Char, occurs pat l = false → replaceAll pat rep l = l := by
  intro l
  induction l with
  | nil => intro _; rfl
  | cons c rest ih =>
    intro h
    rw [occurs, Bool.or_eq_false_iff] at h
    rw [replaceAll_cons, if_neg, ih h.2]
    intro hcond
    have := hcond.2
    rw [h.1] at this
    exact Bool.false_ne_true this

/-- C9 — a heading candidate whose exact `<h{level}>{title}</h{level}>`
substring does not occur in the rendered HTML leaves the HTML unchanged
(and, the step being a total function, raises no error), while its TOC
entry is still appended (lines 130–131). -/
theorem tocStep_missing_heading_frame (acc html line : List Char)
    (hline : line.head? = some '#')
    (hmiss : occurs (headingPat (tocLevel line) (tocTitle line)) html = false) :
    tocStep (acc, html) line =
      (acc ++ tocEntry (tocLevel line) (slugify (tocTitle line)) (tocTitle line),
        html) := by
  simp only [tocStep, hline, reduceIte]
  rw [replaceAll_of_not_occurs _ _ _ hmiss]

/-- Witness for C9: the heading line `# *Hi*` whose title the renderer
turned into `<h1><em>Hi</em></h1>`, so the literal tag text does not
occur. -/
theorem tocStep_missing_heading_frame_witness :
    (strC "# *Hi*").head? = some '#' ∧
      occurs (headingPat (tocLevel (strC "# *Hi*")) (tocTitle (strC "# *Hi*")))
        (strC "<h1><em>Hi</em></h1>") = false ∧
      tocStep (strC "<ul>", strC "<h1><em>Hi</em></h1>") (strC "# *Hi*") =
        (strC "<ul>" ++ tocEntry (tocLevel (strC "# *Hi*"))
          (slugify (tocTitle (strC "# *Hi*"))) (tocTitle (strC "# *Hi*")),
          strC "<h1><em>Hi</em></h1>") :=
  ⟨by decide, by decide,
    tocStep_missing_heading_frame _ _ _ (by decide) (by decide)⟩

/-- C2 counterexample — one heading candidate `# T` against a rendered
HTML holding two identical `<h1>T</h1>` tags: `html.replace` (line 131)
rewrites BOTH occurrences, so the result differs from what first-
occurrence-only rewriting would give. -/
theorem heading_rewrite_not_first_only :
    (tocLoop [strC "# T"] (strC "<h1>T</h1><h1>T</h1>")).2 =
        strC "<h1 id='t'>T</h1><h1 id='t'>T</h1>" ∧
      (tocLoop [strC "# T"] (strC "<h1>T</h1><h1>T</h1>")).2 ≠
        strC "<h1 id='t'>T</h1><h1>T</h1>" := by
  decide

/-- No occurrence of `pat` starts strictly before position `a.length`
in `a ++ tail`. -/
def noEarlyOcc (pat a tail : List Char) : Prop :=
  ∀ i, i < a.length → pat.isPrefixOf ((a ++ tail).drop i) = false

instance (pat a tail : List Char) : Decidable (noEarlyOcc pat a tail) :=
  inferInstanceAs
    (Decidable (∀ i, i < a.length → pat.isPrefixOf ((a ++ tail).drop i) = false))

/-- `str.replace` rewrites the leftmost occurrence and scans on behind
it. -/
theorem replaceAll_first_at (pat rep : List Char) :
    ∀ a b : List Char, pat ≠ [] → noEarlyOcc pat a (pat ++ b) →
      replaceAll pat rep (a ++ pat ++ b) = a ++ (rep ++ replaceAll pat rep b) := by
  intro a
  induction a with
  | nil =>
    intro b hp _
    simp only [List.nil_append]
    cases pat with
    | nil => exact absurd rfl hp
    | cons p pt =>
      have hpre : (p :: pt).isPrefixOf ((p :: pt) ++ b) = true :=
        List.isPrefixOf_iff_prefix.2 (List.prefix_append _ _)
      rw [List.cons_append] at hpre
      rw [List.cons_append, replaceAll_cons, if_pos ⟨hp, hpre⟩,
        ← List.cons_append, List.drop_left]
  | cons x a' ih =>
    intro b hp h
    simp only [List.cons_append, List.append_assoc]
    have h0 : pat.isPrefixOf (x :: (a' ++ (pat ++ b))) = false := by
      have h' := h 0 (by simp)
      simpa [List.append_assoc] using h'
    have hrec : noEarlyOcc pat a' (pat ++ b) := by
      intro i hi
      have h' := h (i + 1) (by simp; omega)
      simpa [List.append_assoc] using h'
    have hnc : ¬(pat ≠ [] ∧ pat.isPrefixOf (x :: (a' ++ (pat ++ b))) = true) :=
      fun hcond => by rw [h0] at hcond; exact Bool.false_ne_true hcond.2
    rw [replaceAll_cons, if_neg hnc]
    have ih' := ih b hp hrec
    rw [List.append_assoc] at ih'
    rw [ih']

/-- C2 amended — the rewrite of line 131 is Python's `str.replace`,
which rewrites EVERY left-to-right non-overlapping occurrence of
`<h{level}>{title}</h{level}>`, not only the first: a text with two
occurrences (neither preceded by an earlier overlapping one) has both
rewritten. -/
theorem heading_rewrite_all_occurrences (pat rep a b c : List Char)
    (hp : pat ≠ [])
    (h1 : noEarlyOcc pat a (pat ++ (b ++ pat ++ c)))
    (h2 : noEarlyOcc pat b (pat ++ c)) :
    replaceAll pat rep (a ++ pat ++ b ++ pat ++ c) =
      a ++ rep ++ b ++ rep ++ replaceAll pat rep c := by
  have e1 : a ++ pat ++ b ++ pat ++ c = a ++ pat ++ (b ++ pat ++ c) := by
    simp [List.append_assoc]
  rw [e1, replaceAll_first_at pat rep a (b ++ pat ++ c) hp h1,
    replaceAll_first_at pat rep b c hp h2]
  simp [List.append_assoc]

/-- Witness for the amended C2: the pattern `<h1>T</h1>` occurring
twice around `<p>x</p>`; both occurrences receive the anchor id. -/
theorem heading_rewrite_all_occurrences_witness :
    (strC "<h1>T</h1>" ≠ [] ∧
        noEarlyOcc (strC "<h1>T</h1>") []
          (strC "<h1>T</h1>" ++ (strC "<p>x</p>" ++ strC "<h1>T</h1>" ++ [])) ∧
        noEarlyOcc (strC "<h1>T</h1>") (strC "<p>x</p>")
          (strC "<h1>T</h1>" ++ [])) ∧
      replaceAll (strC "<h1>T</h1>") (strC "<h1 id='t'>T</h1>")
          ([] ++ strC "<h1>T</h1>" ++ strC "<p>x</p>" ++ strC "<h1>T</h1>" ++ []) =
        [] ++ strC "<h1 id='t'>T</h1>" ++ strC "<p>x</p>" ++
          strC "<h1 id='t'>T</h1>" ++ replaceAll (strC "<h1>T</h1>")
            (strC "<h1 id='t'>T</h1>") [] :=
  ⟨⟨by decide, by decide, by decide⟩,
    heading_rewrite_all_occurrences _ _ _ _ _ (by decide) (by decide) (by decide)⟩

/-! ## C5 — filename resolution priority -/

theorem takeWhile_ne_newline_eq_self (t : List Char) (h : ∀ c ∈ t, c ≠ '\n') :
    t.takeWhile (fun c => c != '\n') = t := by
  induction t with
  | nil => rfl
  | cons c rest ih =>
    rw [List.takeWhile_cons, if_pos (bne_iff_ne.mpr (h c (List.mem_cons_self c rest)))]
    rw [ih (fun d hd => h d (List.mem_cons_of_mem c hd))]

theorem takeWhile_stops_at_newline (t rest : List Char) (h : ∀ c ∈ t, c ≠ '\n') :
    (t ++ '\n' :: rest).takeWhile (fun c => c != '\n') = t := by
  induction t with
  | nil => simp [List.takeWhile_cons]
  | cons c t' ih =>
    rw [List.cons_append, List.takeWhile_cons,
      if_pos (bne_iff_ne.mpr (h c (List.mem_cons_self c t')))]
    rw [ih (fun d hd => h d (List.mem_cons_of_mem c hd))]

/-- C5 — the output base name priority of lines 157–164:
(1) a first line of the form `#`, one space, then at least one
character (the title, i.e. the `re.match(r"# (.+)")` group) gives the
stripped title with spaces replaced by underscores; otherwise (2) an
uploaded name gives that name without its extension; otherwise (3) the
name is `converted_` followed by the formatted current time. -/
theorem resolveBaseName_priority (md : List Char)
    (uploaded : Option (List Char)) (now : List Char) :
    (∀ t : List Char, t ≠ [] → (∀ c ∈ t, c ≠ '\n') →
        (md = '#' :: ' ' :: t ∨ ∃ rest, md = '#' :: ' ' :: (t ++ '\n' :: rest)) →
        resolveBaseName md uploaded now =
          (pystrip t).map (fun c => if c = ' ' then '_' else c)) ∧
      (firstLineH1Title md = none → ∀ name, uploaded = some name →
        resolveBaseName md uploaded now = splitextBase name) ∧
      (firstLineH1Title md = none → uploaded = none →
        resolveBaseName md uploaded now = strC "converted_" ++ now) := by
  refine ⟨?_, ?_, ?_⟩
  · intro t ht hnl hmd
    have hfl : firstLineH1Title md = some t := by
      rcases hmd with h1 | ⟨rest, h2⟩
      · subst h1
        simp only [firstLineH1Title]
        rw [takeWhile_ne_newline_eq_self t hnl, if_neg ht]
      · subst h2
        simp only [firstLineH1Title]
        rw [takeWhile_stops_at_newline t rest hnl, if_neg ht]
    simp only [resolveBaseName, hfl]
  · intro hnone name hup
    simp only [resolveBaseName, hnone, hup]
  · intro hnone hup
    simp only [resolveBaseName, hnone, hup]

/-- Witness for C5, one concrete input per priority branch:
`# My Report\nbody` (title wins), `body` with upload `notes.md`
(upload wins), `body` with no upload (timestamp). -/
theorem resolveBaseName_priority_witness :
    (resolveBaseName (strC "# My Report\nbody") (some (strC "notes.md"))
        (strC "20260101_000000") =
      (pystrip (strC "My Report")).map (fun c => if c = ' ' then '_' else c)) ∧
      (resolveBaseName (strC "body") (some (strC "notes.md"))
          (strC "20260101_000000") = splitextBase (strC "notes.md")) ∧
      (resolveBaseName (strC "body") none (strC "20260101_000000") =
        strC "converted_" ++ strC "20260101_000000") :=
  ⟨(resolveBaseName_priority (strC "# My Report\nbody") (some (strC "notes.md"))
      (strC "20260101_000000")).1 (strC "My Report") (by decide) (by decide)
      (Or.inr ⟨strC "body", by decide⟩),
    (resolveBaseName_priority (strC "body") (some (strC "notes.md"))
      (strC "20260101_000000")).2.1 (by decide) (strC "notes.md") rfl,
    (resolveBaseName_priority (strC "body") none
      (strC "20260101_000000")).2.2 (by decide) rfl⟩

/-! ## C8 — theme fragment exclusivity -/

theorem occurs_iff_sub (pat : List Char) :
    ∀ l : List Char, occurs pat l = true ↔ pat <:+: l := by
  intro l
  induction l with
  | nil =>
    simp [occurs, List.isEmpty_iff]
  | cons c rest ih =>
    rw [occurs]
    simp only [Bool.or_eq_true, List.isPrefixOf_iff_prefix, ih,
      List.infix_cons_iff]

theorem occurs_of_sub (pat l : List Char) (h : pat <:+: l) :
    occurs pat l = true := (occurs_iff_sub pat l).2 h

/-- If a marker substring of `frag` does not occur in `l`, neither does
`frag`. -/
theorem not_occurs_of_marker (marker frag l : List Char)
    (hm : marker <:+: frag) (h : occurs marker l = false) :
    occurs frag l = false := by
  cases h' : occurs frag l with
  | false => rfl
  | true =>
    exfalso
    have hf : frag <:+: l := (occurs_iff_sub frag l).1 h'
    have h2 : occurs marker l = true := occurs_of_sub _ _ (hm.trans hf)
    rw [h] at h2
    exact Bool.false_ne_true h2

/-- The selected theme's fragment sits inside the composed block. -/
theorem stylesGet_sub_composeStyle (t : List Char) (fs : Nat) (sp : Bool) :
    stylesGet t <:+: composeStyle t fs sp :=
  ⟨stylePre ++ natStr fs ++ styleMid,
    stylePost1 ++ (if sp then strC "always" else strC "auto") ++ stylePost2,
    by simp [composeStyle, List.append_assoc]⟩

/-- The property C8 states, at one font size and page-break setting:
each named theme's composed block contains its own CSS fragment and no
other theme's (non-empty) fragment, and an unrecognized theme name is
looked up as the empty fragment, whose block contains no theme fragment
at all. -/
def themeFragmentExclusive (fs : Nat) (sp : Bool) : Prop :=
  (occurs darkFrag (composeStyle (strC "Dark") fs sp) = true ∧
      occurs githubFrag (composeStyle (strC "Dark") fs sp) = false ∧
      occurs notionFrag (composeStyle (strC "Dark") fs sp) = false ∧
      occurs minimalistFrag (composeStyle (strC "Dark") fs sp) = false) ∧
    (occurs githubFrag (composeStyle (strC "GitHub") fs sp) = true ∧
      occurs notionFrag (composeStyle (strC "GitHub") fs sp) = false ∧
      occurs minimalistFrag (composeStyle (strC "GitHub") fs sp) = false ∧
      occurs darkFrag (composeStyle (strC "GitHub") fs sp) = false) ∧
    (occurs notionFrag (composeStyle (strC "Notion") fs sp) = true ∧
      occurs githubFrag (composeStyle (strC "Notion") fs sp) = false ∧
      occurs minimalistFrag (composeStyle (strC "Notion") fs sp) = false ∧
      occurs darkFrag (composeStyle (strC "Notion") fs sp) = false) ∧
    (occurs minimalistFrag (composeStyle (strC "Minimalist") fs sp) = true ∧
      occurs githubFrag (composeStyle (strC "Minimalist") fs sp) = false ∧
      occurs notionFrag (composeStyle (strC "Minimalist") fs sp) = false ∧
      occurs darkFrag (composeStyle (strC "Minimalist") fs sp) = false) ∧
    (occurs githubFrag (composeStyle (strC "Default") fs sp) = false ∧
      occurs notionFrag (composeStyle (strC "Default") fs sp) = false ∧
      occurs minimalistFrag (composeStyle (strC "Default") fs sp) = false ∧
      occurs darkFrag (composeStyle (strC "Default") fs sp) = false) ∧
    (∀ t : List Char, t ≠ strC "Default" → t ≠ strC "GitHub" →
      t ≠ strC "Notion" → t ≠ strC "Minimalist" → t ≠ strC "Dark" →
      stylesGet t = [] ∧
        occurs githubFrag (composeStyle t fs sp) = false ∧
        occurs notionFrag (composeStyle t fs sp) = false ∧
        occurs minimalistFrag (composeStyle t fs sp) = false ∧
        occurs darkFrag (composeStyle t fs sp) = false)

set_option maxRecDepth 8192 in
/-- C8 — for every font size in the UI slider range (8–20) and both
page-break settings, the composed style block contains exactly the
selected theme's fragment: its own fragment occurs, no other theme's
non-empty fragment occurs, and unrecognized theme names get the empty
fragment (and a block free of all theme fragments).  (`Default`'s
fragment is the empty string, which trivially occurs everywhere, so
"no other theme's fragment" quantifies over the four non-empty ones.) -/
theorem composeStyle_theme_exclusive (fs : Nat) (h8 : 8 ≤ fs)
    (h20 : fs ≤ 20) (sp : Bool) : themeFragmentExclusive fs sp := by
  have hneg :
      (occurs (strC "Segoe") (composeStyle (strC "Dark") fs sp) = false ∧
        occurs (strC "#fdfdfd") (composeStyle (strC "Dark") fs sp) = false ∧
        occurs (strC "Georgia") (composeStyle (strC "Dark") fs sp) = false) ∧
      (occurs (strC "#fdfdfd") (composeStyle (strC "GitHub") fs sp) = false ∧
        occurs (strC "Georgia") (composeStyle (strC "GitHub") fs sp) = false ∧
        occurs (strC "#121212") (composeStyle (strC "GitHub") fs sp) = false) ∧
      (occurs (strC "Segoe") (composeStyle (strC "Notion") fs sp) = false ∧
        occurs (strC "Georgia") (composeStyle (strC "Notion") fs sp) = false ∧
        occurs (strC "#121212") (composeStyle (strC "Notion") fs sp) = false) ∧
      (occurs (strC "Segoe") (composeStyle (strC "Minimalist") fs sp) = false ∧
        occurs (strC "#fdfdfd") (composeStyle (strC "Minimalist") fs sp) = false ∧
        occurs (strC "#121212") (composeStyle (strC "Minimalist") fs sp) = false) ∧
      (occurs (strC "Segoe") (composeStyle (strC "Default") fs sp) = false ∧
        occurs (strC "#fdfdfd") (composeStyle (strC "Default") fs sp) = false ∧
        occurs (strC "Georgia") (composeStyle (strC "Default") fs sp) = false ∧
        occurs (strC "#121212") (composeStyle (strC "Default") fs sp) = false) ∧
      (occurs (strC "Segoe") (composeStyle (strC "?") fs sp) = false ∧
        occurs (strC "#fdfdfd") (composeStyle (strC "?") fs sp) = false ∧
        occurs (strC "Georgia") (composeStyle (strC "?") fs sp) = false ∧
        occurs (strC "#121212") (composeStyle (strC "?") fs sp) = false) := by
    interval_cases fs <;> cases sp <;> decide
  obtain ⟨hD, hG, hN, hM, hDef, hQ⟩ := hneg
  refine ⟨⟨?_, ?_, ?_, ?_⟩, ⟨?_, ?_, ?_, ?_⟩, ⟨?_, ?_, ?_, ?_⟩,
    ⟨?_, ?_, ?_, ?_⟩, ⟨?_, ?_, ?_, ?_⟩, ?_⟩
  · exact occurs_of_sub _ _
      ((by decide : stylesGet (strC "Dark") = darkFrag) ▸
        stylesGet_sub_composeStyle (strC "Dark") fs sp)
  · exact not_occurs_of_marker _ _ _ (by decide) hD.1
  · exact not_occurs_of_marker _ _ _ (by decide) hD.2.1
  · exact not_occurs_of_marker _ _ _ (by decide) hD.2.2
  · exact occurs_of_sub _ _
      ((by decide : stylesGet (strC "GitHub") = githubFrag) ▸
        stylesGet_sub_composeStyle (strC "GitHub") fs sp)
  · exact not_occurs_of_marker _ _ _ (by decide) hG.1
  · exact not_occurs_of_marker _ _ _ (by decide) hG.2.1
  · exact not_occurs_of_marker _ _ _ (by decide) hG.2.2
  · exact occurs_of_sub _ _
      ((by decide : stylesGet (strC "Notion") = notionFrag) ▸
        stylesGet_sub_composeStyle (strC "Notion") fs sp)
  · exact not_occurs_of_marker _ _ _ (by decide) hN.1
  · exact not_occurs_of_marker _ _ _ (by decide) hN.2.1
  · exact not_occurs_of_marker _ _ _ (by decide) hN.2.2
  · exact occurs_of_sub _ _
      ((by decide : stylesGet (strC "Minimalist") = minimalistFrag) ▸
        stylesGet_sub_composeStyle (strC "Minimalist") fs sp)
  · exact not_occurs_of_marker _ _ _ (by decide) hM.1
  · exact not_occurs_of_marker _ _ _ (by decide) hM.2.1
  · exact not_occurs_of_marker _ _ _ (by decide) hM.2.2
  · exact not_occurs_of_marker _ _ _ (by decide) hDef.1
  · exact not_occurs_of_marker _ _ _ (by decide) hDef.2.1
  · exact not_occurs_of_marker _ _ _ (by decide) hDef.2.2.1
  · exact not_occurs_of_marker _ _ _ (by decide) hDef.2.2.2
  · intro t h1 h2 h3 h4 h5
    have ht0 : stylesGet t = [] := by
      simp only [stylesGet, if_neg h1, if_neg h2, if_neg h3, if_neg h4,
        if_neg h5]
    have hteq : composeStyle t fs sp = composeStyle (strC "?") fs sp := by
      simp only [composeStyle, ht0,
        (by decide : stylesGet (strC "?") = ([] : List Char))]
    refine ⟨ht0, ?_, ?_, ?_, ?_⟩
    · rw [hteq]
      exact not_occurs_of_marker _ _ _ (by decide) hQ.1
    · rw [hteq]
      exact not_occurs_of_marker _ _ _ (by decide) hQ.2.1
    · rw [hteq]
      exact not_occurs_of_marker _ _ _ (by decide) hQ.2.2.1
    · rw [hteq]
      exact not_occurs_of_marker _ _ _ (by decide) hQ.2.2.2

/-- Witness for C8 at font size 12 with page splitting on. -/
theorem composeStyle_theme_exclusive_witness :
    (8 ≤ 12 ∧ 12 ≤ 20) ∧ themeFragmentExclusive 12 true :=
  ⟨⟨by decide, by decide⟩,
    composeStyle_theme_exclusive 12 (by decide) (by decide) true⟩

/-! ## C3, C4, C6 — temp files, compression, failure reporting -/

/-- C3 — the cleanup contract fails: when `pdfkit.from_string`
(line 186) raises, the `.pdf` temp file created at line 185 survives
the attempt, because its name is appended to `temp_files` only at
line 187, after a successful render, and the cleanup loop of
lines 218–219 only unlinks tracked names.  Likewise a failing HTML
write leaves the `.html` file.  Successful attempts do clean up. -/
theorem tmp_file_leak_on_failure :
    (runAttempt ⟨false, false, false, false⟩ .atRender
        (strC "wkhtmltopdf not found") [] [] (strC "doc.pdf")
        (strC "doc.html")).leftover = [TmpFile.pdf] ∧
      (runAttempt ⟨false, false, true, false⟩ .atHtmlWrite (strC "disk full")
        [1] [2] (strC "doc.pdf") (strC "doc.html")).leftover = [TmpFile.html] ∧
      (runAttempt ⟨false, false, true, true⟩ .noFail [] [1] [2]
        (strC "doc.pdf") (strC "doc.html")).leftover = [] := by
  decide

/-- C4 — with compression enabled, the bytes offered by the download
button (line 200) are exactly the renderer's output; the compression
branch (lines 211–213) only emits the `✅ PDF compressed!` banner and
transforms nothing. -/
theorem compress_option_leaves_bytes_unchanged
    (pdfBytes htmlBytes : List Nat) :
    (runAttempt ⟨false, false, false, true⟩ .noFail [] pdfBytes htmlBytes
        (strC "doc.pdf") (strC "doc.html")).events =
      [.info (strC "✅ PDF generated!"),
        .artifact (strC "doc.pdf") pdfBytes,
        .info (strC "✅ PDF compressed!")] := by
  rfl

/-- C6 counterexample — with `save_html` on and the HTML temp write
failing, the attempt both shows the failure banner AND has already
offered the PDF download button: an artifact is offered for a failed
attempt, contradicting all-or-nothing reporting. -/
theorem failure_with_artifact_offered :
    ((runAttempt ⟨false, false, true, false⟩ .atHtmlWrite (strC "disk full")
          [1] [2] (strC "doc.pdf") (strC "doc.html")).events.any
        Ev.isFailure = true) ∧
      ((runAttempt ⟨false, false, true, false⟩ .atHtmlWrite (strC "disk full")
          [1] [2] (strC "doc.pdf") (strC "doc.html")).events.any
        Ev.isArtifact = true) := by
  decide

/-- C6 amended — when an error is raised at an executed step of the
attempt, exactly one failure banner appears, it carries the error's
text, and it is the last thing emitted (nothing further is offered);
but artifacts offered before the failure point (the PDF download when
the later HTML export fails) remain offered. -/
theorem single_failure_banner_last (fl : Flags) (fp : FailPoint)
    (err : List Char) (pdfBytes htmlBytes : List Nat)
    (fnamePdf fnameHtml : List Char)
    (hfail : fp = .atRender ∨ (fp = .atHtmlWrite ∧ fl.saveHtml = true)) :
    ((runAttempt fl fp err pdfBytes htmlBytes fnamePdf fnameHtml).events.filter
        Ev.isFailure = [.failure (errMsg err)]) ∧
      (runAttempt fl fp err pdfBytes htmlBytes fnamePdf
        fnameHtml).events.getLast? = some (.failure (errMsg err)) := by
  obtain ⟨sP, dP, sH, cP⟩ := fl
  rcases hfail with rfl | ⟨rfl, hs⟩
  · simp [runAttempt, Ev.isFailure]
  · simp only at hs
    subst hs
    cases dP <;>
      simp [runAttempt, Ev.isFailure, List.filter_append, List.getLast?_append]

/-- Witness for the amended C6: HTML write failure with `save_html`
on. -/
theorem single_failure_banner_last_witness :
    (FailPoint.atHtmlWrite = FailPoint.atRender ∨
        (FailPoint.atHtmlWrite = FailPoint.atHtmlWrite ∧
          (Flags.mk false false true false).saveHtml = true)) ∧
      (((runAttempt ⟨false, false, true, false⟩ .atHtmlWrite (strC "boom")
            [1] [2] (strC "a.pdf") (strC "a.html")).events.filter
          Ev.isFailure = [.failure (errMsg (strC "boom"))]) ∧
        (runAttempt ⟨false, false, true, false⟩ .atHtmlWrite (strC "boom")
          [1] [2] (strC "a.pdf") (strC "a.html")).events.getLast? =
          some (.failure (errMsg (strC "boom")))) :=
  ⟨Or.inr ⟨rfl, rfl⟩,
    single_failure_banner_last ⟨false, false, true, false⟩ .atHtmlWrite
      (strC "boom") [1] [2] (strC "a.pdf") (strC "a.html")
      (Or.inr ⟨rfl, rfl⟩)⟩

/-! ## C10 — determinism of the final HTML -/

/-- C10 — the final HTML is a function of the document and the
configuration alone: two runs at different wall-clock times produce the
identical HTML, and the resolved base name either agrees between the
two runs or both runs are in the timestamp fallback branch (no
first-line `# title`, no uploaded name), where it is exactly
`converted_` plus each run's formatted time. -/
theorem finalHtml_time_independent (mdRender : List Char → List Char)
    (md : List Char) (cfg : Config) (uploaded : Option (List Char))
    (now1 now2 : List Char) :
    (convertOutputs mdRender md cfg uploaded now1).1 =
        (convertOutputs mdRender md cfg uploaded now2).1 ∧
      ((convertOutputs mdRender md cfg uploaded now1).2 =
          (convertOutputs mdRender md cfg uploaded now2).2 ∨
        ((convertOutputs mdRender md cfg uploaded now1).2 =
            strC "converted_" ++ now1 ∧
          (convertOutputs mdRender md cfg uploaded now2).2 =
            strC "converted_" ++ now2)) := by
  refine ⟨rfl, ?_⟩
  rcases hm : firstLineH1Title md with _ | t
  · rcases uploaded with _ | name
    · right
      constructor <;> simp [convertOutputs, resolveBaseName, hm]
    · left
      simp [convertOutputs, resolveBaseName, hm]
  · left
    simp [convertOutputs, resolveBaseName, hm]

end M2P
